import Mathlib

/-!
Shallow embedding of the SSL Labs assessment pipeline (sslsub.py) and proofs
about its polling / backoff engine.

Conventions of the embedding:
* Machine-level effects are made explicit.  A remote `newScan` call is an
  oracle lookup `env.calls k` for the k-th call of the session; an exception
  raised by the wrapper library is modelled as `Except.error msg`.
* Wall-clock time is the number of seconds slept so far (remote calls are
  modelled as instantaneous); `time.sleep(d)` adds `d` to the clock and is
  also logged, so that theorems can speak about the sleeps performed.
* The Python loops `while True:` are given a fuel parameter; `none` means the
  fuel was exhausted before the loop exited, so a run of the original program
  terminates exactly when some fuel makes the embedding return `some`.
-/

namespace SslSub

/-- Poll/backoff constants of sslsub.py lines 26-29, in seconds
(`MAX_POLL_MINUTES` is kept in minutes as in the source). -/
def POLL_WAIT : Nat := 30

/-- Initial backoff when the concurrency limit is reached (line 27). -/
def BACKOFF_START : Nat := 60

/-- Backoff cap, 10 minutes (line 28). -/
def BACKOFF_MAX : Nat := 600

/-- Stop polling a host after this many minutes (line 29). -/
def MAX_POLL_MINUTES : Nat := 20

/-- Structured view of the JSON dict returned by the SSL Labs wrapper, holding
exactly the keys that `scan_until_ready` reads or writes: `host`, `status`,
`errors` (kept as the list of its message strings), `warnings` and `error`.
`none` models an absent key. -/
structure Resp where
  host : Option String := none
  status : Option String := none
  errorMsgs : List String := []
  warnings : Option (List String) := none
  error : Option String := none
  deriving DecidableEq, Repr

/-- Bool test: the first list is a prefix of the second. -/
def startsWithB : List Char → List Char → Bool
  | [], _ => true
  | _ :: _, [] => false
  | a :: as, b :: bs => a == b && startsWithB as bs

/-- Bool test: the first list occurs contiguously inside the second. -/
def containsB (p : List Char) : List Char → Bool
  | [] => p.isEmpty
  | b :: bs => startsWithB p (b :: bs) || containsB p bs

/-- Python `needle in haystack` on strings. -/
def strIn (needle hay : String) : Bool := containsB needle.data hay.data

/-- is_limit_error, sslsub.py lines 59-64: some entry of `errors` has a
message containing the distinguished concurrency-limit substring. -/
def is_limit_error (r : Resp) : Bool :=
  r.errorMsgs.any (fun m => strIn "Concurrent assessment limit" m)

/-- Abstract remote environment of one `scan_until_ready` session:
`cache` is the value of `ssl.resultsFromCache(host)` after the
try/except of lines 135-138 (`none` covers both an exception and a
falsy/None return), and `calls k` is the outcome of the k-th
`ssl.newScan(host)` call of the session, counted from 0
(`Except.error e` models a raised exception whose string form is `e`). -/
structure Env where
  cache : Option Resp
  calls : Nat → Except String Resp

/-- Session state: `now` is seconds elapsed since `started_at` (line 145),
`backoff` and `attempt` are the local variables of lines 144-147, `nextCall`
counts the `ssl.newScan` calls already made, and the two lists log the
durations of the `time.sleep` calls performed (instrumentation: poll-interval
sleeps and backoff sleeps, each in chronological order). -/
structure St where
  now : Nat
  backoff : Nat
  attempt : Nat
  nextCall : Nat
  pollSleeps : List Nat
  backoffSleeps : List Nat
  deriving DecidableEq, Repr

/-- State at session start (lines 144-147). -/
def St.init : St :=
  { now := 0, backoff := BACKOFF_START, attempt := 0, nextCall := 0,
    pollSleeps := [], backoffSleeps := [] }

/-- `time.sleep(POLL_WAIT)` of line 183 (with the attempt bump of 181 kept
separate). -/
def sleepPoll (d : Nat) (st : St) : St :=
  { st with now := st.now + d, pollSleeps := st.pollSleeps ++ [d] }

/-- Lines 157-160 and 190-193 (identical in the source):
`wait_for = min(backoff, BACKOFF_MAX); time.sleep(wait_for);
backoff = min(backoff * 2, BACKOFF_MAX)`. -/
def backoffStep (st : St) : St :=
  let wait_for := min st.backoff BACKOFF_MAX
  { st with now := st.now + wait_for,
            backoffSleeps := st.backoffSleeps ++ [wait_for],
            backoff := min (st.backoff * 2) BACKOFF_MAX }

/-- Synthetic result of line 152. -/
def newScanFailed (host e : String) : Resp :=
  { host := some host, status := some "ERROR",
    error := some ("newScan failed: " ++ e) }

/-- Synthetic result of line 164. -/
def retryFailed (host e : String) : Resp :=
  { host := some host, status := some "ERROR",
    error := some ("newScan retry failed: " ++ e) }

/-- Synthetic result of line 198. -/
def pollFailed (host e : String) : Resp :=
  { host := some host, status := some "ERROR",
    error := some ("poll failed: " ++ e) }

/-- Warning text of line 178. -/
def timeoutMsg : String :=
  "Stopped polling after " ++ toString MAX_POLL_MINUTES ++ " minutes."

/-- Lines 177-178: `data.setdefault("warnings", []);
data["warnings"].append(...)`. -/
def addTimeoutWarning (d : Resp) : Resp :=
  { d with warnings := some (d.warnings.getD [] ++ [timeoutMsg]) }

/-- One iteration of the immediate limit handling, lines 156-166: sleep the
(escalating) backoff and call `newScan` again; `.inl` is a `break` (with the
first non-limit response, or with the synthetic error result if the retry
raises), `.inr` continues the loop. -/
def limitStep (env : Env) (host : String) (st : St) : (St × Resp) ⊕ St :=
  let st1 := backoffStep st
  let st2 := { st1 with nextCall := st1.nextCall + 1 }
  match env.calls st1.nextCall with
  | .error e => .inl (st2, retryFailed host e)
  | .ok data =>
    if is_limit_error data then .inr st2 else .inl (st2, data)

/-- Immediate limit handling, the `while True` of lines 155-167. -/
def limitLoop (env : Env) (host : String) : Nat → St → Option (St × Resp)
  | 0, _ => none
  | fuel + 1, st =>
    match limitStep env host st with
    | .inl p => some p
    | .inr st2 => limitLoop env host fuel st2

/-- One iteration of the poll loop, lines 171-199.  The source checks
`(time.time() - started_at) / 60.0 >= MAX_POLL_MINUTES`; over an integral
number of elapsed seconds this is exactly `MAX_POLL_MINUTES * 60 ≤ now`.
On a mid-poll limit response the engine sleeps one backoff and makes exactly
one further call inside the same try block (lines 188-195), falling through
to the next iteration with whatever that call produced; an exception from
either call of the try block returns the synthetic error result (lines
196-199).  `.inl` is a `return`, `.inr` continues the loop with the freshly
polled response. -/
def pollStep (env : Env) (host : String) (st : St) (data : Resp) :
    (St × Resp) ⊕ (St × Resp) :=
  if data.status = some "READY" ∨ data.status = some "ERROR" then
    .inl (st, data)
  else if MAX_POLL_MINUTES * 60 ≤ st.now then
    .inl (st, addTimeoutWarning data)
  else
    let st1 := sleepPoll POLL_WAIT { st with attempt := st.attempt + 1 }
    let st2 := { st1 with nextCall := st1.nextCall + 1 }
    match env.calls st1.nextCall with
    | .error e => .inl (st2, pollFailed host e)
    | .ok d1 =>
      if is_limit_error d1 then
        let st3 := backoffStep st2
        let st4 := { st3 with nextCall := st3.nextCall + 1 }
        match env.calls st3.nextCall with
        | .error e => .inl (st4, pollFailed host e)
        | .ok d2 => .inr (st4, d2)
      else .inr (st2, d1)

/-- Poll loop, the `while True` of lines 170-199. -/
def pollLoop (env : Env) (host : String) : Nat → St → Resp → Option (St × Resp)
  | 0, _, _ => none
  | fuel + 1, st, data =>
    match pollStep env host st data with
    | .inl p => some p
    | .inr q => pollLoop env host fuel q.1 q.2

/-- Submission phase, lines 148-167: first `newScan` call (synthetic error
result if it raises, returned without polling), then the immediate limit
handling. -/
def submitPhase (env : Env) (host : String) (fuel : Nat) : Option (St × Resp) :=
  let st1 := { St.init with nextCall := St.init.nextCall + 1 }
  match env.calls St.init.nextCall with
  | .error e => some (st1, newScanFailed host e)
  | .ok data =>
    if is_limit_error data then limitLoop env host fuel st1
    else some (st1, data)

/-- Body of `scan_until_ready` after the cache check, lines 143-199. -/
def scanBody (env : Env) (host : String) (fuel : Nat) : Option (St × Resp) :=
  let st1 := { St.init with nextCall := St.init.nextCall + 1 }
  match env.calls St.init.nextCall with
  | .error e => some (st1, newScanFailed host e)
  | .ok data =>
    if is_limit_error data then
      match limitLoop env host fuel st1 with
      | none => none
      | some q => pollLoop env host fuel q.1 q.2
    else pollLoop env host fuel st1 data

/-- scan_until_ready, lines 127-199.  The truthiness test
`if cached and cached.get("status") == "READY"` collapses to the status
comparison: a falsy cached dict cannot have status `"READY"`. -/
def scan_until_ready (env : Env) (host : String) (fuel : Nat) :
    Option (St × Resp) :=
  match env.cache with
  | some cached =>
    if cached.status = some "READY" then some (St.init, cached)
    else scanBody env host fuel
  | none => scanBody env host fuel

/-! ### JSON payload model and extract_summary (sslsub.py lines 58-124) -/

/-- Python values as seen by `extract_summary`: None, bool, int, str, list,
dict (string keys).  Floats do not occur in the fields the script reads. -/
inductive J where
  | null
  | b (v : Bool)
  | n (v : Int)
  | s (v : String)
  | arr (l : List J)
  | obj (l : List (String × J))

/-- Python truthiness. -/
def J.truthy : J → Bool
  | .null => false
  | .b v => v
  | .n v => v != 0
  | .s v => v != ""
  | .arr l => !l.isEmpty
  | .obj l => !l.isEmpty

/-- `isinstance(x, dict)`. -/
def J.isObj : J → Bool
  | .obj _ => true
  | _ => false

/-- `d.get(key, dflt)`: raises (AttributeError) when the receiver is not a
dict, otherwise returns the value or the default. -/
def J.get (d : J) (key : String) (dflt : J) : Except Unit J :=
  match d with
  | .obj kvs =>
    match kvs.find? (fun kv => kv.1 == key) with
    | some kv => .ok kv.2
    | none => .ok dflt
  | _ => .error ()

/-- `x[0]`: first element of a list, first character of a string; raises on
anything else (including an empty list). -/
def J.sub0 : J → Except Unit J
  | .arr (x :: _) => .ok x
  | .s v =>
    match v.data with
    | c :: _ => .ok (.s c.toString)
    | [] => .error ()
  | _ => .error ()

/-- `x[-1]`: last element of a list, last character of a string. -/
def J.subLast : J → Except Unit J
  | .arr l =>
    match l.getLast? with
    | some x => .ok x
    | none => .error ()
  | .s v =>
    match v.data.getLast? with
    | some c => .ok (.s c.toString)
    | none => .error ()
  | _ => .error ()

/-- `d[key]` with a string key: dict lookup raising KeyError when absent,
TypeError on non-dicts. -/
def J.subs (d : J) (key : String) : Except Unit J :=
  match d with
  | .obj kvs =>
    match kvs.find? (fun kv => kv.1 == key) with
    | some kv => .ok kv.2
    | none => .error ()
  | _ => .error ()

/-- `for x in v`: lists iterate elements, strings their characters, dicts
their keys; other values raise TypeError. -/
def J.iter : J → Except Unit (List J)
  | .arr l => .ok l
  | .s v => .ok (v.data.map (fun c => J.s c.toString))
  | .obj kvs => .ok (kvs.map (fun kv => J.s kv.1))
  | _ => .error ()

/-- `str(v)` (container reprs abbreviated; no claim depends on them). -/
def pyStr : J → String
  | .null => "None"
  | .b true => "True"
  | .b false => "False"
  | .n v => toString v
  | .s v => v
  | .arr _ => "[...]"
  | .obj _ => "\x7b...\x7d"

/-- Two-digit zero padding for strftime fields. -/
def pad2 (n : Nat) : String :=
  if n < 10 then "0" ++ toString n else toString n

/-- Four-digit zero padding for the year. -/
def pad4 (n : Nat) : String :=
  if n < 10 then "000" ++ toString n
  else if n < 100 then "00" ++ toString n
  else if n < 1000 then "0" ++ toString n
  else toString n

/-- Proleptic-Gregorian civil date from days since 1970-01-01
(standard era-based conversion): year, month, day. -/
def civilFromDays (z0 : Int) : Int × Nat × Nat :=
  let z := z0 + 719468
  let era := Int.fdiv z 146097
  let doe := (z - era * 146097).toNat
  let yoe := (doe - doe / 1460 + doe / 36524 - doe / 146096) / 365
  let y := (yoe : Int) + era * 400
  let doy := doe - (365 * yoe + yoe / 4 - yoe / 100)
  let mp := (5 * doy + 2) / 153
  let d := doy - (153 * mp + 2) / 5 + 1
  let m := if mp < 10 then mp + 3 else mp - 9
  (if m ≤ 2 then y + 1 else y, m, d)

/-- `datetime.utcfromtimestamp(sec).strftime("%Y-%m-%d %H:%M:%S")` for an
integral number of seconds, or none when the timestamp falls outside
datetime's year range 1..9999 (where Python raises). -/
def formatUtc (sec : Int) : Option String :=
  let days := Int.fdiv sec 86400
  let sod := (Int.emod sec 86400).toNat
  match civilFromDays days with
  | (y, m, d) =>
    if y < 1 ∨ 9999 < y then none
    else some (pad4 y.toNat ++ "-" ++ pad2 m ++ "-" ++ pad2 d ++ " " ++
      pad2 (sod / 3600) ++ ":" ++ pad2 (sod % 3600 / 60) ++ ":" ++
      pad2 (sod % 60))

/-- pretty_ts, lines 66-70.  `ms/1000` is Python float division followed by
strftime, which on integral milliseconds amounts to flooring to whole
seconds (modelled with `Int.fdiv`); any TypeError (non-numeric input) or
out-of-range OverflowError is caught and yields "N/A".  Python bools are
ints (True == 1). -/
def pretty_ts (ms : J) : String :=
  match ms with
  | .n v => (formatUtc (Int.fdiv v 1000)).getD "N/A"
  | .b v => (formatUtc (Int.fdiv (if v then 1 else 0) 1000)).getD "N/A"
  | _ => "N/A"

/-- `sep.join(values)`: raises TypeError unless every element is a string. -/
def joinStrs (sep : String) (l : List J) : Except Unit String := do
  let strs ← l.mapM (fun j =>
    match j with
    | .s v => Except.ok v
    | _ => Except.error ())
  pure (String.intercalate sep strs)

/-- Try-block of extract_summary, lines 74-121, statement by statement. -/
def extractBody (data : J) : Except Unit (List J) := do
  let host ← data.get "host" (J.s "N/A")
  let status ← data.get "status" (J.s "N/A")
  let eps ← data.get "endpoints" J.null
  let endpoint ← (if eps.truthy then eps else J.arr [J.obj []]).sub0
  let ip ← endpoint.get "ipAddress" (J.s "N/A")
  let grade ← endpoint.get "grade" (J.s "N/A")
  let details ← if endpoint.isObj then endpoint.get "details" (J.obj [])
    else pure (J.obj [])
  let cert ← if details.isObj then details.get "cert" (J.obj [])
    else pure (J.obj [])
  let subject ← cert.get "subject" (J.s "N/A")
  let issuer ← cert.get "issuerLabel" (J.s "N/A")
  let notBefore ← cert.get "notBefore" (J.n 0)
  let notAfter ← cert.get "notAfter" (J.n 0)
  let valid_from := pretty_ts notBefore
  let valid_to := pretty_ts notAfter
  let key_size ← cert.get "keySize" (J.s "N/A")
  let key_algo ← cert.get "keyAlgorithm" (J.s "N/A")
  let protocols ← if details.isObj then details.get "protocols" (J.arr [])
    else pure (J.arr [])
  let plist ← protocols.iter
  let proto_list ← plist.mapM (fun p => do
    let name ← p.get "name" (J.s "")
    let ver ← p.get "version" (J.s "")
    pure (((pyStr name).trim ++ " " ++ (pyStr ver).trim).trim))
  let proto_str := if proto_list.isEmpty then "N/A"
    else String.intercalate ", " (proto_list.filter (fun x => !x.isEmpty))
  let suites ← if details.isObj then do
      let tmp ← details.get "suites" J.null
      (if tmp.truthy then tmp else J.obj []).get "list" (J.arr [])
    else pure (J.arr [])
  let slist ← suites.iter
  let ciphers ← slist.foldlM (fun acc sj => do
    let t ← sj.get "name" J.null
    if t.truthy then do
      let v ← sj.get "name" (J.s "")
      pure (acc ++ [v])
    else pure acc) ([] : List J)
  let cipher_str ← if ciphers.isEmpty then pure "N/A"
    else joinStrs ", " ciphers
  let strongest ← if suites.truthy then do
      let s0 ← suites.sub0
      s0.subs "name"
    else pure (J.s "N/A")
  let weakest ← if suites.truthy then do
      let sl ← suites.subLast
      sl.subs "name"
    else pure (J.s "N/A")
  let chain ← if details.isObj then details.get "chain" (J.obj [])
    else pure (J.obj [])
  let chain_issues ← chain.get "issues" (J.s "N/A")
  pure [host, ip, grade, status, J.s proto_str,
        strongest, weakest, J.s cipher_str,
        subject, issuer, J.s valid_from, J.s valid_to,
        key_algo, key_size, chain_issues]

/-- extract_summary, lines 73-124.  The except-branch (line 124) evaluates
`data.get("host", "N/A")` again — it raises out of the function when `data`
is not a dict — and pads with thirteen "N/A" cells. -/
def extract_summary (data : J) : Except Unit (List J) :=
  match extractBody data with
  | .ok row => .ok row
  | .error _ =>
    (data.get "host" (J.s "N/A")).map
      (fun h => h :: List.replicate 13 (J.s "N/A"))

/-- CSV header row written by main, lines 212-217. -/
def csvHeader : List String :=
  ["Host", "IP", "Grade", "Status", "Protocols",
   "Strongest Cipher", "Weakest Cipher", "All Ciphers",
   "Cert Subject", "Cert Issuer", "Valid From", "Valid To",
   "Key Algorithm", "Key Size", "Chain Issues"]

/-- Placeholder row main writes for a host without HTTPS, lines 222-225. -/
def noHttpsRow (host : String) : List J :=
  [J.s host, J.s "N/A", J.s "No HTTPS"] ++ List.replicate 12 (J.s "N/A")

/-! ### Host gate and per-host pipeline step (lines 50-56 and 219-246) -/

/-- Abstract network: outcome of
`socket.create_connection((host, port), timeout)`; `.ok` is an established
(and immediately closed) connection, `.error` any connection exception
(refusal, timeout, DNS failure). -/
structure NetEnv where
  connect : String → Nat → Nat → Except String Unit

/-- has_https, lines 50-56 (defaults port=443, timeout=4 supplied at the
call site, as `main` calls `has_https(sub)`). -/
def has_https (net : NetEnv) (host : String) (port timeout : Nat) : Bool :=
  match net.connect host port timeout with
  | .ok _ => true
  | .error _ => false

/-- Structured engine result rendered back as the JSON dict main hands to
`extract_summary` (absent keys omitted). -/
def Resp.toJ (r : Resp) : J :=
  J.obj
    ((match r.host with | some h => [("host", J.s h)] | none => []) ++
     (match r.status with | some sv => [("status", J.s sv)] | none => []) ++
     (if r.errorMsgs.isEmpty then []
      else [("errors",
             J.arr (r.errorMsgs.map (fun m => J.obj [("message", J.s m)])))]) ++
     (match r.warnings with
      | some w => [("warnings", J.arr (w.map J.s))]
      | none => []) ++
     (match r.error with | some e => [("error", J.s e)] | none => []))

/-- Per-host body of main's loop, lines 219-246, restricted to the CSV row it
writes and the number of `newScan` calls made for the host: an unreachable
host gets the fixed placeholder row and no scan session at all; otherwise the
summary of the session's result is written. -/
def mainHostStep (net : NetEnv) (env : Env) (host : String) (fuel : Nat) :
    Option (Except Unit (List J) × Nat) :=
  if has_https net host 443 4 then
    match scan_until_ready env host fuel with
    | none => none
    | some p => some (extract_summary (Resp.toJ p.2), p.1.nextCall)
  else
    some (.ok (noHttpsRow host), 0)

/-- A quota-exceeded (concurrency-limit) example response; its status key is
absent, as in the live service's limit payloads. -/
def limitResp : Resp :=
  { errorMsgs := ["Concurrent assessment limit reached (24/25)"] }

/-- An in-progress example response. -/
def inprogResp : Resp :=
  { host := some "h.example", status := some "IN_PROGRESS" }

/-- A READY example response. -/
def readyResp : Resp :=
  { host := some "h.example", status := some "READY" }

/-- Environment that returns READY on the very first submission. -/
def envReady : Env := { cache := none, calls := fun _ => .ok readyResp }

/-- Environment whose first call is quota-exceeded and second call READY. -/
def envOneLimit : Env :=
  { cache := none,
    calls := fun k => if k = 0 then .ok limitResp else .ok readyResp }

/-- Environment in which every call reports the concurrency limit. -/
def envAllQ : Env := { cache := none, calls := fun _ => .ok limitResp }

/-- Environment whose first call raises an exception. -/
def envErr0 : Env :=
  { cache := none, calls := fun _ => .error "connection reset" }

/-- Environment that stays in progress except for one quota-exceeded
response at the 39th poll, pushing the session past the poll ceiling. -/
def envLateLimit : Env :=
  { cache := none,
    calls := fun k => .ok (if k = 39 then limitResp else inprogResp) }

/-- Environment that reports in progress on every call. -/
def envInprog : Env := { cache := none, calls := fun _ => .ok inprogResp }

/-- Environment with two quota-exceeded responses before a READY one. -/
def envTwoLimit : Env :=
  { cache := none,
    calls := fun k => if k < 2 then .ok limitResp else .ok readyResp }

/-- Environment with a READY result already cached. -/
def envCached : Env :=
  { cache := some readyResp, calls := fun _ => .ok readyResp }

/-- Network in which the TCP connect succeeds. -/
def netUp : NetEnv := { connect := fun _ _ _ => .ok () }

/-- Network in which the TCP connect is refused. -/
def netDown : NetEnv := { connect := fun _ _ _ => .error "refused" }

/-- Malformed payload: the first endpoint is not a dict, so line 79 raises
inside the try block. -/
def badEndpointData : J :=
  J.obj [("host", J.s "h.example"), ("endpoints", J.arr [J.n 42])]

/-- A well-formed READY payload exercising the full happy path. -/
def fullReadyData : J :=
  J.obj
    [("host", J.s "h.example"), ("status", J.s "READY"),
     ("endpoints", J.arr
       [J.obj
         [("ipAddress", J.s "192.0.2.7"), ("grade", J.s "A"),
          ("details", J.obj
            [("cert", J.obj
               [("subject", J.s "CN=h.example"),
                ("issuerLabel", J.s "ExampleCA"),
                ("notBefore", J.n 1700000000000),
                ("notAfter", J.n 1731536000000),
                ("keySize", J.n 2048), ("keyAlgorithm", J.s "RSA")]),
             ("protocols", J.arr
               [J.obj [("name", J.s "TLS"), ("version", J.s "1.2")],
                J.obj [("name", J.s "TLS"), ("version", J.s "1.3")]]),
             ("suites", J.obj
               [("list", J.arr
                  [J.obj [("name", J.s "TLS_AES_256_GCM_SHA384")],
                   J.obj [("name", J.s "TLS_AES_128_GCM_SHA256")]])]),
             ("chain", J.obj [("issues", J.n 0)])])]])]

/-! ### Predicates used in the specifications -/

/-- The k-th `newScan` call returns (no exception) a quota-exceeded
response. -/
def isQuota (env : Env) (k : Nat) : Prop :=
  ∃ d, env.calls k = .ok d ∧ is_limit_error d = true

/-- Every call below index n returned a response (no exception). -/
def okBelow (env : Env) (n : Nat) : Prop :=
  ∀ k, k < n → ∃ d, env.calls k = .ok d

/-- Every call of the session returns a response that is neither READY nor
ERROR. -/
def allOkNonterminal (env : Env) : Prop :=
  ∀ k, ∃ d, env.calls k = .ok d ∧
    d.status ≠ some "READY" ∧ d.status ≠ some "ERROR"

/-- The result is terminal (READY or ERROR status) or carries the
poll-ceiling warning. -/
def terminalOrTimeout (r : Resp) : Prop :=
  r.status = some "READY" ∨ r.status = some "ERROR" ∨
    timeoutMsg ∈ r.warnings.getD []

/-- Every raised exception ends the session at once: if the k-th call of the
session raised `e` and was actually made, then it was the session's last
call and the result is the corresponding synthetic ERROR record. -/
def errResult (env : Env) (host : String) (p : St × Resp) : Prop :=
  ∀ k e, k < p.1.nextCall → env.calls k = .error e →
    p.1.nextCall = k + 1 ∧ p.2.status = some "ERROR" ∧
    p.2.host = some host ∧
      (p.2.error = some ("newScan failed: " ++ e) ∨
       p.2.error = some ("newScan retry failed: " ++ e) ∨
       p.2.error = some ("poll failed: " ++ e))

/-- The schedule of backoff waits the code can produce: the k-th backoff wait
(counting from k = 0) is `min(BACKOFF_START * 2^k, BACKOFF_MAX)`. -/
def bwaitSeq (n : Nat) : List Nat :=
  (List.range n).map (fun k => min (BACKOFF_START * 2 ^ k) BACKOFF_MAX)

/-- Backoff invariant: the stored interval is the next scheduled wait and the
waits slept so far follow the schedule. -/
def binv (st : St) : Prop :=
  st.backoff = min (BACKOFF_START * 2 ^ st.backoffSleeps.length) BACKOFF_MAX ∧
  st.backoffSleeps = bwaitSeq st.backoffSleeps.length

/-! ### Helper lemmas about the loops -/

/-- More fuel never changes a result the limit loop already produced. -/
theorem limitLoop_mono (env : Env) (host : String) :
    ∀ {f fb : Nat} {st : St} {p : St × Resp}, f ≤ fb →
      limitLoop env host f st = some p → limitLoop env host fb st = some p := by
  intro f
  induction f with
  | zero => intro fb st p _ h; simp [limitLoop] at h
  | succ n ih =>
    intro fb st p hle h
    obtain ⟨m, rfl⟩ : ∃ m, fb = m + 1 := ⟨fb - 1, by omega⟩
    rw [limitLoop] at h ⊢
    rcases hs : limitStep env host st with q | st2 <;> rw [hs] at h
    · exact h
    · exact ih (by omega) h

/-- More fuel never changes a result the poll loop already produced. -/
theorem pollLoop_mono (env : Env) (host : String) :
    ∀ {f fb : Nat} {st : St} {d : Resp} {p : St × Resp}, f ≤ fb →
      pollLoop env host f st d = some p → pollLoop env host fb st d = some p := by
  intro f
  induction f with
  | zero => intro fb st d p _ h; simp [pollLoop] at h
  | succ n ih =>
    intro fb st d p hle h
    obtain ⟨m, rfl⟩ : ∃ m, fb = m + 1 := ⟨fb - 1, by omega⟩
    rw [pollLoop] at h ⊢
    rcases hs : pollStep env host st d with q | q <;> rw [hs] at h
    · exact h
    · exact ih (by omega) h

/-- A continuing poll iteration advances the clock by at least the poll wait
and by at most the poll wait plus the backoff cap, makes one or two calls,
and continues with the response of the last call it made. -/
theorem pollStep_inr (env : Env) (host : String) {st : St} {d : Resp}
    {q : St × Resp} (h : pollStep env host st d = .inr q) :
    st.now + POLL_WAIT ≤ q.1.now ∧
    q.1.now ≤ st.now + POLL_WAIT + BACKOFF_MAX ∧
    st.nextCall + 1 ≤ q.1.nextCall ∧ q.1.nextCall ≤ st.nextCall + 2 ∧
    env.calls (q.1.nextCall - 1) = .ok q.2 := by
  simp only [pollStep] at h
  split at h
  · cases h
  split at h
  · cases h
  split at h
  · cases h
  split at h
  · split at h
    · cases h
    · rename_i d2 heq2
      injection h with h
      rw [← h]
      refine ⟨?_, ?_, ?_, ?_, ?_⟩
      · simp only [backoffStep, sleepPoll, POLL_WAIT, BACKOFF_MAX]; omega
      · simp only [backoffStep, sleepPoll, POLL_WAIT, BACKOFF_MAX]; omega
      · simp only [backoffStep, sleepPoll]; omega
      · simp only [backoffStep, sleepPoll]; omega
      · exact heq2
  · rename_i d1 heq1 hnl
    injection h with h
    rw [← h]
    refine ⟨?_, ?_, ?_, ?_, ?_⟩
    · simp only [sleepPoll, POLL_WAIT, BACKOFF_MAX]; omega
    · simp only [sleepPoll, POLL_WAIT, BACKOFF_MAX]; omega
    · simp only [sleepPoll]; omega
    · simp only [sleepPoll]; omega
    · exact heq1

/-- When the time ceiling has been reached, the poll iteration returns. -/
theorem pollStep_ceiling (env : Env) (host : String) {st : St} {d : Resp}
    (h : MAX_POLL_MINUTES * 60 ≤ st.now) :
    ∃ p, pollStep env host st d = .inl p := by
  unfold pollStep
  by_cases ht : d.status = some "READY" ∨ d.status = some "ERROR" <;>
    simp [ht, h]

/-- With enough fuel relative to the clock, the poll loop returns. -/
theorem pollLoop_total (env : Env) (host : String) :
    ∀ (f : Nat) (st : St) (d : Resp),
      MAX_POLL_MINUTES * 60 ≤ st.now + POLL_WAIT * f →
      ∃ p, pollLoop env host (f + 1) st d = some p := by
  intro f
  induction f with
  | zero =>
    intro st d h
    simp only [Nat.mul_zero, Nat.add_zero] at h
    obtain ⟨p, hp⟩ := @pollStep_ceiling env host st d h
    exact ⟨p, by rw [pollLoop, hp]⟩
  | succ n ih =>
    intro st d h
    rw [pollLoop]
    rcases hs : pollStep env host st d with p | q
    · exact ⟨p, rfl⟩
    · obtain ⟨h1, _, _, _⟩ := pollStep_inr env host hs
      obtain ⟨p, hp⟩ := ih q.1 q.2 (by
        have : POLL_WAIT * (n + 1) = POLL_WAIT + POLL_WAIT * n := by ring
        omega)
      exact ⟨p, hp⟩

/-- A terminal-status response is returned unchanged by the poll loop. -/
theorem pollLoop_terminal (env : Env) (host : String) {f : Nat} {st : St}
    {data : Resp} (ht : data.status = some "READY" ∨ data.status = some "ERROR")
    (hf : 1 ≤ f) : pollLoop env host f st data = some (st, data) := by
  obtain ⟨m, rfl⟩ : ∃ m, f = m + 1 := ⟨f - 1, by omega⟩
  have hs : pollStep env host st data = .inl (st, data) := by
    unfold pollStep; rw [if_pos ht]
  rw [pollLoop, hs]

theorem backoffStep_nextCall (st : St) : (backoffStep st).nextCall = st.nextCall :=
  rfl

/-- Behavior of a limit-loop iteration when the retry raises. -/
theorem limitStep_error {env : Env} (host : String) {st : St} {e : String}
    (hc : env.calls st.nextCall = .error e) :
    limitStep env host st =
      .inl ({ backoffStep st with nextCall := st.nextCall + 1 },
            retryFailed host e) := by
  simp only [limitStep, backoffStep_nextCall, hc]

/-- Behavior of a limit-loop iteration when the retry answers. -/
theorem limitStep_ok {env : Env} (host : String) {st : St} {d : Resp}
    (hc : env.calls st.nextCall = .ok d) :
    limitStep env host st =
      (if is_limit_error d
       then .inr { backoffStep st with nextCall := st.nextCall + 1 }
       else .inl ({ backoffStep st with nextCall := st.nextCall + 1 }, d)) := by
  simp only [limitStep, backoffStep_nextCall, hc]

/-- Running the limit loop across j quota-exceeded responses: it exits at the
first non-quota outcome, having made exactly j + 1 further calls, and when
that outcome is a response it exits with exactly that response. -/
theorem limitLoop_run (env : Env) (host : String) :
    ∀ (j : Nat) (st : St),
      (∀ i, i < j → isQuota env (st.nextCall + i)) →
      ¬ isQuota env (st.nextCall + j) →
      ∃ st2 r, limitLoop env host (j + 1) st = some (st2, r) ∧
        st2.nextCall = st.nextCall + j + 1 ∧
        (∀ d, env.calls (st.nextCall + j) = .ok d → r = d) := by
  intro j
  induction j with
  | zero =>
    intro st _ hexit
    rw [Nat.add_zero] at hexit
    rcases hc : env.calls st.nextCall with e | d
    · refine ⟨{ backoffStep st with nextCall := st.nextCall + 1 },
        retryFailed host e, ?_, rfl, ?_⟩
      · rw [limitLoop, limitStep_error host hc]
      · intro d hd
        rw [Nat.add_zero, hc] at hd
        cases hd
    · have hl : is_limit_error d = false := by
        rcases hb : is_limit_error d with _ | _
        · rfl
        · exact absurd ⟨d, hc, hb⟩ hexit
      refine ⟨{ backoffStep st with nextCall := st.nextCall + 1 }, d,
        ?_, rfl, ?_⟩
      · rw [limitLoop, limitStep_ok host hc, if_neg (by simp [hl])]
      · intro d2 hd2
        rw [Nat.add_zero, hc] at hd2
        exact (Except.ok.inj hd2)
  | succ j ih =>
    intro st hq hexit
    obtain ⟨d0, hc0, hl0⟩ := hq 0 (Nat.succ_pos j)
    rw [Nat.add_zero] at hc0
    have hstep : limitStep env host st =
        .inr { backoffStep st with nextCall := st.nextCall + 1 } := by
      rw [limitStep_ok host hc0, if_pos hl0]
    have hb : ({ backoffStep st with nextCall := st.nextCall + 1 } : St).nextCall
        = st.nextCall + 1 := rfl
    obtain ⟨st2, r, hrun, hnc, hval⟩ :=
      ih { backoffStep st with nextCall := st.nextCall + 1 }
        (fun i hi => by
          rw [hb, show st.nextCall + 1 + i = st.nextCall + (i + 1) from by omega]
          exact hq (i + 1) (by omega))
        (by
          rw [hb, show st.nextCall + 1 + j = st.nextCall + (j + 1) from by omega]
          exact hexit)
    rw [hb] at hnc
    refine ⟨st2, r, ?_, by omega, ?_⟩
    · rw [limitLoop, hstep]; exact hrun
    · intro d hd
      apply hval
      rw [hb, show st.nextCall + 1 + j = st.nextCall + (j + 1) from by omega]
      exact hd

/-- Whatever a poll iteration returns is terminal or timeout-annotated. -/
theorem pollStep_inl_shape {env : Env} {host : String} {st : St} {d : Resp}
    {p : St × Resp} (h : pollStep env host st d = .inl p) :
    terminalOrTimeout p.2 := by
  simp only [pollStep] at h
  split at h
  · injection h with h
    rw [← h]
    rename_i ht
    rcases ht with h1 | h1
    · exact Or.inl h1
    · exact Or.inr (Or.inl h1)
  split at h
  · injection h with h
    rw [← h]
    exact Or.inr (Or.inr (by simp [addTimeoutWarning]))
  split at h
  · injection h with h
    rw [← h]
    exact Or.inr (Or.inl rfl)
  split at h
  · split at h
    · injection h with h
      rw [← h]
      exact Or.inr (Or.inl rfl)
    · cases h
  · cases h

/-- Whatever the poll loop returns is terminal or timeout-annotated. -/
theorem pollLoop_shape (env : Env) (host : String) :
    ∀ {f : Nat} {st : St} {d : Resp} {p : St × Resp},
      pollLoop env host f st d = some p → terminalOrTimeout p.2 := by
  intro f
  induction f with
  | zero => intro st d p h; simp [pollLoop] at h
  | succ n ih =>
    intro st d p h
    rw [pollLoop] at h
    rcases hs : pollStep env host st d with q | q <;> rw [hs] at h
    · injection h with h
      rw [← h]
      exact pollStep_inl_shape hs
    · exact ih h

/-- Whatever `scanBody` returns is terminal or timeout-annotated. -/
theorem scanBody_shape {env : Env} {host : String} {fuel : Nat} {p : St × Resp}
    (h : scanBody env host fuel = some p) : terminalOrTimeout p.2 := by
  simp only [scanBody] at h
  split at h
  · injection h with h
    rw [← h]
    exact Or.inr (Or.inl rfl)
  · split at h
    · split at h
      · cases h
      · exact pollLoop_shape env host h
    · exact pollLoop_shape env host h

/-- Whatever `scan_until_ready` returns is terminal or timeout-annotated. -/
theorem scan_shape {env : Env} {host : String} {fuel : Nat} {p : St × Resp}
    (h : scan_until_ready env host fuel = some p) : terminalOrTimeout p.2 := by
  unfold scan_until_ready at h
  split at h
  · split at h
    · injection h with h
      rw [← h]
      rename_i hcr
      exact Or.inl hcr
    · exact scanBody_shape h
  · exact scanBody_shape h

/-- In the all-quota environment the limit loop never exits. -/
theorem limitLoop_allQ_none (host : String) :
    ∀ (f : Nat) (st : St), limitLoop envAllQ host f st = none := by
  intro f
  induction f with
  | zero => intro st; rfl
  | succ n ih =>
    intro st
    have hc : envAllQ.calls st.nextCall = .ok limitResp := rfl
    have hs : limitStep envAllQ host st =
        .inr { backoffStep st with nextCall := st.nextCall + 1 } := by
      rw [limitStep_ok host hc,
        if_pos (show is_limit_error limitResp = true from by decide)]
    rw [limitLoop, hs]
    exact ih _

/-- In the all-quota environment the session never returns, with any fuel. -/
theorem scan_allQ_none (host : String) :
    ∀ (f : Nat), scan_until_ready envAllQ host f = none := by
  intro f
  show scanBody envAllQ host f = none
  unfold scanBody
  have hc : envAllQ.calls St.init.nextCall = .ok limitResp := rfl
  simp only [hc, show is_limit_error limitResp = true from by decide, if_true,
    limitLoop_allQ_none host f]

/-- If some call of the session is not a quota-exceeded response, the body of
`scan_until_ready` returns for some fuel. -/
theorem scanBody_terminates (env : Env) (host : String)
    (h : ∃ k, ¬ isQuota env k) :
    ∃ fuel p, scanBody env host fuel = some p := by
  haveI : DecidablePred fun k => ¬ isQuota env k := fun k => Classical.dec _
  have hk0 : ¬ isQuota env (Nat.find h) := Nat.find_spec h
  have hmin : ∀ i, i < Nat.find h → isQuota env i :=
    fun i hi => not_not.mp (Nat.find_min h hi)
  rcases hc0 : env.calls St.init.nextCall with e | d0
  · exact ⟨1, _, by unfold scanBody; rw [hc0]⟩
  · by_cases hl0 : is_limit_error d0 = true
    · have h1 : 1 ≤ Nat.find h := by
        rcases Nat.eq_zero_or_pos (Nat.find h) with h0 | h0
        · exact absurd ⟨d0, hc0, hl0⟩ (h0 ▸ hk0)
        · exact h0
      have hb1 : ({ St.init with nextCall := St.init.nextCall + 1 } : St).nextCall
          = 1 := rfl
      obtain ⟨st2, r, hrun, hnc, _⟩ :=
        limitLoop_run env host (Nat.find h - 1)
          { St.init with nextCall := St.init.nextCall + 1 }
          (fun i hi => by
            rw [hb1, show 1 + i = i + 1 from by omega]
            exact hmin (i + 1) (by omega))
          (by
            rw [hb1, show 1 + (Nat.find h - 1) = Nat.find h from by omega]
            exact hk0)
      have hLL : limitLoop env host (Nat.find h - 1 + 43)
          { St.init with nextCall := St.init.nextCall + 1 } = some (st2, r) :=
        limitLoop_mono env host (by omega) hrun
      obtain ⟨p, hp⟩ := pollLoop_total env host (Nat.find h - 1 + 42) st2 r (by
        simp only [MAX_POLL_MINUTES, POLL_WAIT]
        omega)
      refine ⟨Nat.find h - 1 + 43, p, ?_⟩
      unfold scanBody
      simp only [hc0]
      rw [if_pos hl0, hLL]
      rw [show Nat.find h - 1 + 42 + 1 = Nat.find h - 1 + 43 from by omega] at hp
      exact hp
    · obtain ⟨p, hp⟩ := pollLoop_total env host 41
        { St.init with nextCall := St.init.nextCall + 1 } d0 (by
          simp only [MAX_POLL_MINUTES, POLL_WAIT, St.init]
          omega)
      refine ⟨42, p, ?_⟩
      unfold scanBody
      simp only [hc0]
      rw [if_neg hl0]
      exact hp

/-- Provided some call is not a quota-exceeded response, the session
terminates and its result is terminal or timeout-annotated. -/
theorem scan_terminates (env : Env) (host : String)
    (h : ∃ k, ¬ isQuota env k) :
    ∃ fuel p, scan_until_ready env host fuel = some p ∧
      terminalOrTimeout p.2 := by
  rcases hcache : env.cache with _ | c
  · obtain ⟨fuel, p, hp⟩ := scanBody_terminates env host h
    refine ⟨fuel, p, ?_, ?_⟩
    · unfold scan_until_ready; rw [hcache]; exact hp
    · exact scanBody_shape hp
  · by_cases hcr : c.status = some "READY"
    · refine ⟨0, (St.init, c), ?_, Or.inl hcr⟩
      unfold scan_until_ready
      simp only [hcache]
      rw [if_pos hcr]
    · obtain ⟨fuel, p, hp⟩ := scanBody_terminates env host h
      refine ⟨fuel, p, ?_, ?_⟩
      · unfold scan_until_ready; simp only [hcache]; rw [if_neg hcr]; exact hp
      · exact scanBody_shape hp

/-- A poll iteration on a non-terminal response in an environment of
exception-free non-terminal responses: it either returns the
timeout-annotated response (when the ceiling is reached) or continues with
the freshly polled response, whose provenance and clock bounds are known. -/
theorem pollStep_nonterminal {env : Env} (host : String)
    (hok : allOkNonterminal env) {st : St} {d : Resp}
    (hd1 : d.status ≠ some "READY") (hd2 : d.status ≠ some "ERROR") :
    (MAX_POLL_MINUTES * 60 ≤ st.now ∧
      pollStep env host st d = .inl (st, addTimeoutWarning d)) ∨
    (st.now < MAX_POLL_MINUTES * 60 ∧ ∃ q, pollStep env host st d = .inr q ∧
      env.calls (q.1.nextCall - 1) = .ok q.2 ∧
      st.now + POLL_WAIT ≤ q.1.now ∧
      q.1.now ≤ st.now + POLL_WAIT + BACKOFF_MAX ∧ 1 ≤ q.1.nextCall) := by
  have hnt : ¬(d.status = some "READY" ∨ d.status = some "ERROR") :=
    not_or.mpr ⟨hd1, hd2⟩
  by_cases htime : MAX_POLL_MINUTES * 60 ≤ st.now
  · left
    refine ⟨htime, ?_⟩
    unfold pollStep
    rw [if_neg hnt, if_pos htime]
  · right
    refine ⟨by omega, ?_⟩
    rcases hps : pollStep env host st d with p | q
    · exfalso
      simp only [pollStep] at hps
      rw [if_neg hnt, if_neg htime] at hps
      split at hps
      · rename_i e1 heq1
        obtain ⟨d1, hc1, _, _⟩ := hok st.nextCall
        have heq1a : env.calls st.nextCall = .error e1 := heq1
        rw [hc1] at heq1a
        cases heq1a
      · rename_i d1 heq1
        split at hps
        · split at hps
          · rename_i e2 heq2
            obtain ⟨d2, hc2, _, _⟩ := hok (st.nextCall + 1)
            have heq2a : env.calls (st.nextCall + 1) = .error e2 := heq2
            rw [hc2] at heq2a
            cases heq2a
          · cases hps
        · cases hps
    · obtain ⟨hlow, hhigh, hnc1, hnc2, hprov⟩ := pollStep_inr env host hps
      exact ⟨q, rfl, hprov, hlow, hhigh, by omega⟩

/-- In an environment of exception-free non-terminal responses, once enough
fuel is supplied relative to the clock, the poll loop returns the last
polled response with the timeout warning appended, at the first iteration
whose elapsed time has reached the ceiling. -/
theorem pollLoop_timeout (env : Env) (host : String)
    (hok : allOkNonterminal env) :
    ∀ (f : Nat) (st : St) (d : Resp),
      env.calls (st.nextCall - 1) = .ok d → 1 ≤ st.nextCall →
      MAX_POLL_MINUTES * 60 ≤ st.now + POLL_WAIT * f →
      ∃ st2 d2, pollLoop env host (f + 1) st d = some (st2, addTimeoutWarning d2) ∧
        env.calls (st2.nextCall - 1) = .ok d2 ∧
        MAX_POLL_MINUTES * 60 ≤ st2.now ∧
        (st2.now ≤ st.now ∨
          st2.now < MAX_POLL_MINUTES * 60 + POLL_WAIT + BACKOFF_MAX) := by
  intro f
  induction f with
  | zero =>
    intro st d hprov hpos htime
    simp only [Nat.mul_zero, Nat.add_zero] at htime
    obtain ⟨d0, hc0, hs1, hs2⟩ := hok (st.nextCall - 1)
    rw [hprov] at hc0
    injection hc0 with hc0
    rw [← hc0] at hs1 hs2
    rcases @pollStep_nonterminal env host hok st d hs1 hs2 with
      ⟨_, hstep⟩ | ⟨hlt, _⟩
    · exact ⟨st, d, by rw [pollLoop, hstep], hprov, htime, Or.inl le_rfl⟩
    · omega
  | succ n ih =>
    intro st d hprov hpos htime
    obtain ⟨d0, hc0, hs1, hs2⟩ := hok (st.nextCall - 1)
    rw [hprov] at hc0
    injection hc0 with hc0
    rw [← hc0] at hs1 hs2
    rcases @pollStep_nonterminal env host hok st d hs1 hs2 with
      ⟨hge, hstep⟩ | ⟨hlt, q, hstep, hqprov, hqlow, hqhigh, hqpos⟩
    · exact ⟨st, d, by rw [pollLoop, hstep], hprov, hge, Or.inl le_rfl⟩
    · obtain ⟨st2, d2, hrun, hprov2, htime2, hbound2⟩ :=
        ih q.1 q.2 hqprov hqpos (by
          have hm : POLL_WAIT * (n + 1) = POLL_WAIT + POLL_WAIT * n := by ring
          omega)
      refine ⟨st2, d2, ?_, hprov2, htime2, Or.inr ?_⟩
      · rw [pollLoop, hstep]; exact hrun
      · rcases hbound2 with hb | hb
        · omega
        · exact hb

/-! ### Backoff schedule invariant -/

theorem bwaitSeq_succ (n : Nat) :
    bwaitSeq (n + 1) =
      bwaitSeq n ++ [min (BACKOFF_START * 2 ^ n) BACKOFF_MAX] := by
  simp [bwaitSeq, List.range_succ]

theorem min_double (n : Nat) :
    min (min (BACKOFF_START * 2 ^ n) BACKOFF_MAX * 2) BACKOFF_MAX =
      min (BACKOFF_START * 2 ^ (n + 1)) BACKOFF_MAX := by
  have h2 : BACKOFF_START * 2 ^ (n + 1) = BACKOFF_START * 2 ^ n * 2 := by
    rw [pow_succ]; ring
  rw [h2]
  omega

theorem backoffStep_binv {st : St} (h : binv st) : binv (backoffStep st) := by
  obtain ⟨h1, h2⟩ := h
  simp only [binv, backoffStep, List.length_append, List.length_singleton]
  constructor
  · rw [h1]
    exact min_double _
  · conv_lhs => rw [h2, h1]
    rw [bwaitSeq_succ]
    congr 1
    congr 1
    omega

theorem limitStep_binv {env : Env} {host : String} {st : St} (h : binv st) :
    (∀ p, limitStep env host st = .inl p → binv p.1) ∧
    (∀ st2, limitStep env host st = .inr st2 → binv st2) := by
  have hb : binv (backoffStep st) := backoffStep_binv h
  constructor
  · intro p hp
    simp only [limitStep] at hp
    split at hp
    · injection hp with hp; rw [← hp]; exact hb
    · split at hp
      · cases hp
      · injection hp with hp; rw [← hp]; exact hb
  · intro st2 hx
    simp only [limitStep] at hx
    split at hx
    · cases hx
    · split at hx
      · injection hx with hx; rw [← hx]; exact hb
      · cases hx

theorem pollStep_binv {env : Env} {host : String} {st : St} {d : Resp}
    (h : binv st) :
    (∀ p, pollStep env host st d = .inl p → binv p.1) ∧
    (∀ q, pollStep env host st d = .inr q → binv q.1) := by
  constructor
  · intro p hp
    simp only [pollStep] at hp
    split at hp
    · injection hp with hp; rw [← hp]; exact h
    split at hp
    · injection hp with hp; rw [← hp]; exact h
    split at hp
    · injection hp with hp; rw [← hp]; exact h
    split at hp
    · split at hp
      · injection hp with hp; rw [← hp]; exact backoffStep_binv h
      · cases hp
    · cases hp
  · intro q hq
    simp only [pollStep] at hq
    split at hq
    · cases hq
    split at hq
    · cases hq
    split at hq
    · cases hq
    split at hq
    · split at hq
      · cases hq
      · injection hq with hq; rw [← hq]; exact backoffStep_binv h
    · injection hq with hq; rw [← hq]; exact h

theorem limitLoop_binv (env : Env) (host : String) :
    ∀ {f : Nat} {st : St} {p : St × Resp}, binv st →
      limitLoop env host f st = some p → binv p.1 := by
  intro f
  induction f with
  | zero => intro st p _ h; simp [limitLoop] at h
  | succ n ih =>
    intro st p hb h
    rw [limitLoop] at h
    rcases hs : limitStep env host st with q | st2 <;> rw [hs] at h
    · injection h with h; rw [← h]; exact (limitStep_binv hb).1 q hs
    · exact ih ((limitStep_binv hb).2 st2 hs) h

theorem pollLoop_binv (env : Env) (host : String) :
    ∀ {f : Nat} {st : St} {d : Resp} {p : St × Resp}, binv st →
      pollLoop env host f st d = some p → binv p.1 := by
  intro f
  induction f with
  | zero => intro st d p _ h; simp [pollLoop] at h
  | succ n ih =>
    intro st d p hb h
    rw [pollLoop] at h
    rcases hs : pollStep env host st d with q | q <;> rw [hs] at h
    · injection h with h; rw [← h]; exact (pollStep_binv hb).1 q hs
    · exact ih ((pollStep_binv hb).2 q hs) h

theorem binv_init : binv St.init :=
  ⟨by decide, rfl⟩

theorem scanBody_binv {env : Env} {host : String} {fuel : Nat} {p : St × Resp}
    (h : scanBody env host fuel = some p) : binv p.1 := by
  have h1 : binv ({ St.init with nextCall := St.init.nextCall + 1 } : St) :=
    binv_init
  simp only [scanBody] at h
  split at h
  · injection h with h; rw [← h]; exact h1
  · split at h
    · split at h
      · cases h
      · rename_i q hq
        exact pollLoop_binv env host (limitLoop_binv env host h1 hq) h
    · exact pollLoop_binv env host h1 h

theorem scan_binv {env : Env} {host : String} {fuel : Nat} {p : St × Resp}
    (h : scan_until_ready env host fuel = some p) : binv p.1 := by
  unfold scan_until_ready at h
  split at h
  · split at h
    · injection h with h; rw [← h]; exact binv_init
    · exact scanBody_binv h
  · exact scanBody_binv h

theorem bwaitSeq_pairwise (n : Nat) : (bwaitSeq n).Pairwise (· ≤ ·) := by
  unfold bwaitSeq
  rw [List.pairwise_map]
  refine (List.pairwise_lt_range n).imp ?_
  intro a b hab
  exact min_le_min
    (Nat.mul_le_mul le_rfl (Nat.pow_le_pow_right (by omega) (le_of_lt hab)))
    le_rfl

theorem bwaitSeq_le_max (n : Nat) : ∀ w ∈ bwaitSeq n, w ≤ BACKOFF_MAX := by
  intro w hw
  unfold bwaitSeq at hw
  obtain ⟨k, _, rfl⟩ := List.mem_map.mp hw
  exact min_le_right _ _

/-! ### Exceptions are immediately terminal -/

theorem okBelow_succ {env : Env} {n : Nat} {d : Resp} (h : okBelow env n)
    (hc : env.calls n = .ok d) : okBelow env (n + 1) := by
  intro k hk
  rcases Nat.lt_succ_iff_lt_or_eq.mp hk with h1 | h1
  · exact h k h1
  · exact ⟨d, h1 ▸ hc⟩

theorem pollStep_inl_err {env : Env} {host : String} {st : St} {d : Resp}
    {p : St × Resp} (hok : okBelow env st.nextCall)
    (hs : pollStep env host st d = .inl p) :
    okBelow env p.1.nextCall ∨
      ∃ k e, env.calls k = .error e ∧ p.1.nextCall = k + 1 ∧
        okBelow env k ∧ p.2 = pollFailed host e := by
  simp only [pollStep] at hs
  split at hs
  · injection hs with hs; rw [← hs]; exact Or.inl hok
  split at hs
  · injection hs with hs; rw [← hs]; exact Or.inl hok
  split at hs
  · rename_i e1 heq1
    injection hs with hs
    rw [← hs]
    right
    exact ⟨st.nextCall, e1, heq1, by simp [sleepPoll], hok, rfl⟩
  split at hs
  · rename_i d1 heq1 hl1
    split at hs
    · rename_i e2 heq2
      injection hs with hs
      rw [← hs]
      right
      exact ⟨st.nextCall + 1, e2, heq2, by simp [backoffStep, sleepPoll],
        okBelow_succ hok heq1, rfl⟩
    · cases hs
  · cases hs

theorem pollStep_inr_ok {env : Env} {host : String} {st : St} {d : Resp}
    {q : St × Resp} (hok : okBelow env st.nextCall)
    (hs : pollStep env host st d = .inr q) : okBelow env q.1.nextCall := by
  simp only [pollStep] at hs
  split at hs
  · cases hs
  split at hs
  · cases hs
  split at hs
  · cases hs
  split at hs
  · rename_i d1 heq1 hl1
    split at hs
    · cases hs
    · rename_i d2 heq2
      injection hs with hs
      rw [← hs]
      exact okBelow_succ (okBelow_succ hok heq1) heq2
  · rename_i d1 heq1 hl1
    injection hs with hs
    rw [← hs]
    exact okBelow_succ hok heq1

theorem pollLoop_err (env : Env) (host : String) :
    ∀ {f : Nat} {st : St} {d : Resp} {p : St × Resp},
      okBelow env st.nextCall → pollLoop env host f st d = some p →
      errResult env host p := by
  intro f
  induction f with
  | zero => intro st d p _ h; simp [pollLoop] at h
  | succ n ih =>
    intro st d p hok h
    rw [pollLoop] at h
    rcases hs : pollStep env host st d with q | q <;> rw [hs] at h
    · injection h with h
      rw [← h]
      rcases pollStep_inl_err hok hs with hcase | ⟨k, e, hce, hnc, hbelow, hresp⟩
      · intro k2 e2 hk2 hce2
        obtain ⟨d', hd'⟩ := hcase k2 hk2
        rw [hd'] at hce2
        cases hce2
      · intro k2 e2 hk2 hce2
        rw [hnc] at hk2
        rcases Nat.lt_succ_iff_lt_or_eq.mp hk2 with h1 | h1
        · obtain ⟨d', hd'⟩ := hbelow k2 h1
          rw [hd'] at hce2
          cases hce2
        · subst h1
          rw [hce] at hce2
          injection hce2 with hce2
          subst hce2
          rw [hresp]
          exact ⟨hnc, rfl, rfl, Or.inr (Or.inr rfl)⟩
    · exact ih (pollStep_inr_ok hok hs) h

theorem limitStep_err {env : Env} {host : String} {st : St}
    (hok : okBelow env st.nextCall) :
    (∀ p, limitStep env host st = .inl p →
      okBelow env p.1.nextCall ∨
        ∃ k e, env.calls k = .error e ∧ p.1.nextCall = k + 1 ∧
          okBelow env k ∧ p.2 = retryFailed host e) ∧
    (∀ st2, limitStep env host st = .inr st2 → okBelow env st2.nextCall) := by
  constructor
  · intro p hp
    simp only [limitStep] at hp
    split at hp
    · rename_i e1 heq1
      injection hp with hp
      rw [← hp]
      right
      exact ⟨st.nextCall, e1, heq1, by simp [backoffStep], hok, rfl⟩
    · rename_i d1 heq1
      split at hp
      · cases hp
      · injection hp with hp
        rw [← hp]
        exact Or.inl (okBelow_succ hok heq1)
  · intro st2 hx
    simp only [limitStep] at hx
    split at hx
    · cases hx
    · rename_i d1 heq1
      split at hx
      · injection hx with hx
        rw [← hx]
        exact okBelow_succ hok heq1
      · cases hx

theorem limitLoop_err (env : Env) (host : String) :
    ∀ {f : Nat} {st : St} {p : St × Resp},
      okBelow env st.nextCall → limitLoop env host f st = some p →
      okBelow env p.1.nextCall ∨
        ∃ k e, env.calls k = .error e ∧ p.1.nextCall = k + 1 ∧
          okBelow env k ∧ p.2 = retryFailed host e := by
  intro f
  induction f with
  | zero => intro st p _ h; simp [limitLoop] at h
  | succ n ih =>
    intro st p hok h
    rw [limitLoop] at h
    rcases hs : limitStep env host st with q | st2 <;> rw [hs] at h
    · injection h with h
      rw [← h]
      exact (limitStep_err hok).1 q hs
    · exact ih ((limitStep_err hok).2 st2 hs) h

theorem scanBody_err {env : Env} {host : String} {fuel : Nat} {p : St × Resp}
    (h : scanBody env host fuel = some p) : errResult env host p := by
  simp only [scanBody] at h
  split at h
  · rename_i e0 heq0
    injection h with h
    rw [← h]
    intro k e hk hce
    have hk0 : k = 0 := by
      have hk1 : k < 1 := hk
      omega
    subst hk0
    have heq0a : env.calls 0 = .error e0 := heq0
    rw [heq0a] at hce
    injection hce with hce
    subst hce
    exact ⟨rfl, rfl, rfl, Or.inl rfl⟩
  · rename_i d0 heq0
    have hok1 : okBelow env
        ({ St.init with nextCall := St.init.nextCall + 1 } : St).nextCall := by
      intro k hk
      have hk1 : k < 1 := hk
      have hk0 : k = 0 := by omega
      subst hk0
      exact ⟨d0, heq0⟩
    split at h
    · split at h
      · cases h
      · rename_i q hq
        rcases limitLoop_err env host hok1 hq with hcase |
          ⟨k0, e0, hce0, hnc0, hbelow0, hresp0⟩
        · exact pollLoop_err env host hcase h
        · have hf1 : 1 ≤ fuel := by
            rcases fuel with _ | n
            · simp [limitLoop] at hq
            · omega
          have hterm : pollLoop env host fuel q.1 q.2 = some (q.1, q.2) :=
            pollLoop_terminal env host (by rw [hresp0]; exact Or.inr rfl) hf1
          rw [hterm] at h
          injection h with h
          rw [← h]
          intro k e hk hce
          rw [hnc0] at hk
          rcases Nat.lt_succ_iff_lt_or_eq.mp hk with h1 | h1
          · obtain ⟨d', hd'⟩ := hbelow0 k h1
            rw [hd'] at hce
            cases hce
          · subst h1
            rw [hce0] at hce
            injection hce with hce
            subst hce
            rw [hresp0]
            exact ⟨hnc0, rfl, rfl, Or.inr (Or.inl rfl)⟩
    · exact pollLoop_err env host hok1 h

theorem scan_err {env : Env} {host : String} {fuel : Nat} {p : St × Resp}
    (h : scan_until_ready env host fuel = some p) : errResult env host p := by
  unfold scan_until_ready at h
  split at h
  · split at h
    · injection h with h
      rw [← h]
      intro k e hk _
      have hk0 : k < 0 := hk
      exact absurd hk0 (Nat.not_lt_zero k)
    · exact scanBody_err h
  · exact scanBody_err h

/-! ### Claims -/

/-- Claim C1, counterexample to the frozen wording: after N = 1 consecutive
quota-exceeded responses the wait slept before the 2nd attempt is 60 s
(the floor), not `min(floor * 2^1, ceiling) = 120 s`: the k-th wait uses the
interval before its doubling, so the exponent is N - 1, not N. -/
theorem claim1_counterexample :
    (scan_until_ready envOneLimit "h.example" 10).map
      (fun p => p.1.backoffSleeps) = some [60] ∧
    min (BACKOFF_START * 2 ^ 1) BACKOFF_MAX = 120 ∧ (60 : Nat) ≠ 120 :=
  ⟨by decide, by decide, by decide⟩

/-- Claim C1 (amended): within one `scan_until_ready` session, the sequence
of backoff waits slept is exactly `min(floor * 2^k, ceiling)` for
k = 0, 1, ... (so after N consecutive quota-exceeded responses the wait
before the (N+1)th attempt is `min(floor * 2^(N-1), ceiling)`); hence the
waits start at the floor, are non-decreasing, never exceed the ceiling, and
are never reset mid-session by a success or in-progress response; the
interval is a session-local variable so nothing carries over between
hosts. -/
theorem claim1_backoff_schedule (env : Env) (host : String) (fuel : Nat)
    (p : St × Resp) (h : scan_until_ready env host fuel = some p) :
    p.1.backoffSleeps = (List.range p.1.backoffSleeps.length).map
      (fun k => min (BACKOFF_START * 2 ^ k) BACKOFF_MAX) ∧
    p.1.backoffSleeps.Pairwise (· ≤ ·) ∧
    (∀ w ∈ p.1.backoffSleeps, w ≤ BACKOFF_MAX) := by
  obtain ⟨h1, h2⟩ := scan_binv h
  refine ⟨h2, ?_, ?_⟩
  · rw [h2]; exact bwaitSeq_pairwise _
  · rw [h2]; exact bwaitSeq_le_max _

/-- Claim C1 witness: the schedule theorem applied to a session with one
quota-exceeded response. -/
theorem claim1_backoff_schedule_witness :
    ([60] : List Nat) = (List.range ([60] : List Nat).length).map
      (fun k => min (BACKOFF_START * 2 ^ k) BACKOFF_MAX) ∧
    ([60] : List Nat).Pairwise (· ≤ ·) ∧
    (∀ w ∈ ([60] : List Nat), w ≤ BACKOFF_MAX) :=
  claim1_backoff_schedule envOneLimit "h.example" 10
    (⟨60, 120, 0, 2, [], [60]⟩, readyResp) (by decide)

/-- Claim C2, counterexample to the frozen wording: when every submission
response reports quota-exceeded, `scan_until_ready` never returns (the
submission backoff loop has no time-ceiling check), for any fuel. -/
theorem claim2_counterexample :
    ¬ ∃ fuel, (scan_until_ready envAllQ "a.example" fuel).isSome := by
  rintro ⟨f, hf⟩
  rw [scan_allQ_none "a.example" f] at hf
  exact absurd hf (by decide)

/-- Claim C2 (amended): provided at least one call of the session is not a
quota-exceeded response (it is an exception or a non-limit response), the
session terminates, returning either a terminal result (READY or ERROR,
including the synthetic ERROR for a transport failure) or a result carrying
the poll-ceiling timeout warning. -/
theorem claim2_termination (env : Env) (host : String)
    (h : ∃ k, ¬ isQuota env k) :
    ∃ fuel p, scan_until_ready env host fuel = some p ∧
      terminalOrTimeout p.2 :=
  scan_terminates env host h

/-- Claim C2 witness: the termination theorem applied to an environment that
answers READY at once. -/
theorem claim2_termination_witness :
    ∃ fuel p, scan_until_ready envReady "h.example" fuel = some p ∧
      terminalOrTimeout p.2 :=
  claim2_termination envReady "h.example"
    ⟨0, fun hq => by
      obtain ⟨d, hd, hl⟩ := hq
      have hd1 : (Except.ok readyResp : Except String Resp) = .ok d := hd
      injection hd1 with hd1
      rw [← hd1] at hl
      exact absurd hl (by decide)⟩

/-- Claim C3, counterexample to the frozen wording: with every response
non-terminal (one of them a mid-poll quota-exceeded response near the
ceiling), the session returns only at elapsed time 1230 s, which exceeds the
20-minute (1200 s) ceiling: a mid-poll backoff wait can push the return past
the ceiling, so "returns within the configured ceiling" fails as stated. -/
theorem claim3_counterexample :
    (∀ k, ∃ d, envLateLimit.calls k = .ok d ∧
      d.status ≠ some "READY" ∧ d.status ≠ some "ERROR") ∧
    (scan_until_ready envLateLimit "h.example" 60).map (fun p => p.1.now)
      = some 1230 ∧
    ¬ (1230 ≤ MAX_POLL_MINUTES * 60) := by
  refine ⟨?_, by decide, by decide⟩
  intro k
  by_cases hk : k = 39
  · subst hk
    exact ⟨limitResp, rfl, by decide, by decide⟩
  · refine ⟨inprogResp, ?_, by decide, by decide⟩
    simp [envLateLimit, hk]

/-- Claim C3 (amended): if the submission response is not quota-exceeded and
every call of the session returns (no exception) a response that is neither
READY nor ERROR, then `scan_until_ready` returns at the first poll-loop
check at which elapsed time has reached the 20-minute ceiling; the elapsed
time at return is at least the ceiling and less than ceiling + one poll
interval + one backoff ceiling (1830 s), and the returned result is the
last-polled response with the timeout warning appended to its warnings list
and every other field, including status, unchanged. -/
theorem claim3_timeout (env : Env) (host : String)
    (hc : ∀ c, env.cache = some c → c.status ≠ some "READY")
    (hok : allOkNonterminal env)
    (hsub : ∀ d, env.calls 0 = .ok d → is_limit_error d = false) :
    ∃ fuel p d, scan_until_ready env host fuel = some p ∧
      MAX_POLL_MINUTES * 60 ≤ p.1.now ∧
      p.1.now < MAX_POLL_MINUTES * 60 + POLL_WAIT + BACKOFF_MAX ∧
      env.calls (p.1.nextCall - 1) = .ok d ∧
      p.2 = addTimeoutWarning d ∧
      p.2.status = d.status ∧ p.2.host = d.host ∧ p.2.error = d.error ∧
      p.2.errorMsgs = d.errorMsgs ∧
      p.2.warnings = some (d.warnings.getD [] ++ [timeoutMsg]) := by
  obtain ⟨d0, hc0, _, _⟩ := hok 0
  have hl0 : is_limit_error d0 = false := hsub d0 hc0
  have hc0a : env.calls St.init.nextCall = .ok d0 := hc0
  have hprov : env.calls
      (({ St.init with nextCall := St.init.nextCall + 1 } : St).nextCall - 1)
      = .ok d0 := hc0
  obtain ⟨st2, d2, hrun, hprov2, htime2, hbound2⟩ :=
    pollLoop_timeout env host hok 41
      { St.init with nextCall := St.init.nextCall + 1 } d0 hprov
      (by decide) (by decide)
  have hbody : scanBody env host 42 = some (st2, addTimeoutWarning d2) := by
    unfold scanBody
    simp only [hc0a]
    rw [if_neg (by simp [hl0])]
    exact hrun
  have hscan : scan_until_ready env host 42 = some (st2, addTimeoutWarning d2) := by
    rcases hcache : env.cache with _ | c
    · unfold scan_until_ready; rw [hcache]; exact hbody
    · unfold scan_until_ready; simp only [hcache]
      rw [if_neg (hc c hcache)]; exact hbody
  refine ⟨42, (st2, addTimeoutWarning d2), d2, hscan, htime2, ?_, hprov2,
    rfl, rfl, rfl, rfl, rfl, rfl⟩
  rcases hbound2 with hb | hb
  · have hb0 : st2.now ≤ 0 := hb
    simp only [MAX_POLL_MINUTES, POLL_WAIT, BACKOFF_MAX] at htime2 ⊢
    omega
  · exact hb

/-- Claim C3 witness: the amended timeout theorem applied to an environment
that always reports IN_PROGRESS. -/
theorem claim3_timeout_witness :
    ∃ fuel p d, scan_until_ready envInprog "h.example" fuel = some p ∧
      MAX_POLL_MINUTES * 60 ≤ p.1.now ∧
      p.1.now < MAX_POLL_MINUTES * 60 + POLL_WAIT + BACKOFF_MAX ∧
      envInprog.calls (p.1.nextCall - 1) = .ok d ∧
      p.2 = addTimeoutWarning d ∧
      p.2.status = d.status ∧ p.2.host = d.host ∧ p.2.error = d.error ∧
      p.2.errorMsgs = d.errorMsgs ∧
      p.2.warnings = some (d.warnings.getD [] ++ [timeoutMsg]) :=
  claim3_timeout envInprog "h.example"
    (fun c hcc => by cases hcc)
    (fun k => ⟨inprogResp, rfl, by decide, by decide⟩)
    (fun d hd => by
      have hd1 : (Except.ok inprogResp : Except String Resp) = .ok d := hd
      injection hd1 with hd1
      rw [← hd1]
      decide)

/-- Claim C4: an exception raised by any remote call of the session (initial
submit, backoff retry, or poll) never propagates: the failing call is the
session's last call (in particular no further poll call is made after a
transport failure while polling), and the session returns a well-formed
synthetic result with status ERROR, the host name, and a description of the
failure from one of the three failure sites. -/
theorem claim4_transport_failure (env : Env) (host : String) (fuel : Nat)
    (p : St × Resp) (k : Nat) (e : String)
    (h : scan_until_ready env host fuel = some p)
    (hk : k < p.1.nextCall) (he : env.calls k = .error e) :
    p.1.nextCall = k + 1 ∧ p.2.status = some "ERROR" ∧
    p.2.host = some host ∧
      (p.2.error = some ("newScan failed: " ++ e) ∨
       p.2.error = some ("newScan retry failed: " ++ e) ∨
       p.2.error = some ("poll failed: " ++ e)) :=
  scan_err h k e hk he

/-- Claim C4 witness: the transport-failure theorem applied to a session
whose first call raises. -/
theorem claim4_transport_failure_witness :
    (1 : Nat) = 0 + 1 ∧
    (newScanFailed "h.example" "connection reset").status = some "ERROR" ∧
    (newScanFailed "h.example" "connection reset").host = some "h.example" ∧
      ((newScanFailed "h.example" "connection reset").error =
        some ("newScan failed: " ++ "connection reset") ∨
       (newScanFailed "h.example" "connection reset").error =
        some ("newScan retry failed: " ++ "connection reset") ∨
       (newScanFailed "h.example" "connection reset").error =
        some ("poll failed: " ++ "connection reset")) :=
  claim4_transport_failure envErr0 "h.example" 3
    ((⟨0, BACKOFF_START, 0, 1, [], []⟩ : St),
      newScanFailed "h.example" "connection reset") 0 "connection reset"
    (by decide) (by decide) rfl

/-- Claim C5 (code bug): the CSV header written by main has 15 columns and
the happy-path summary row has 15 columns, but the degraded row produced by
extract_summary's except-branch for an unparsable payload has only 14
columns (`[host] + ["N/A"] * 13`), despite the source's own
"Keep columns aligned" comment; the host name is still its first column. -/
theorem claim5_degraded_row_columns :
    (extract_summary badEndpointData).map List.length = .ok 14 ∧
    csvHeader.length = 15 ∧
    (extract_summary fullReadyData).map List.length = .ok 15 ∧
    (extract_summary badEndpointData).map (fun r => r.take 1)
      = .ok [J.s "h.example"] :=
  ⟨rfl, rfl, rfl, rfl⟩

/-- Claim C6: when a poll-phase call reports quota-exceeded, the engine
sleeps one poll wait then one backoff wait and makes exactly one additional
call, after which it re-enters the loop with whatever that single call
returned (even another quota-exceeded response), without any inner loop,
without resetting the poll attempt counter (it grows by exactly one for the
iteration) and without resetting the session clock (it only advances by the
sleeps). -/
theorem claim6_midpoll_limit_one_extra_call (env : Env) (host : String)
    (fuel : Nat) (st : St) (d d1 d2 : Resp)
    (hnt : d.status ≠ some "READY" ∧ d.status ≠ some "ERROR")
    (htime : st.now < MAX_POLL_MINUTES * 60)
    (h1 : env.calls st.nextCall = .ok d1)
    (hl : is_limit_error d1 = true)
    (h2 : env.calls (st.nextCall + 1) = .ok d2) :
    pollLoop env host (fuel + 1) st d =
      pollLoop env host fuel
        { now := st.now + POLL_WAIT + min st.backoff BACKOFF_MAX,
          backoff := min (st.backoff * 2) BACKOFF_MAX,
          attempt := st.attempt + 1,
          nextCall := st.nextCall + 2,
          pollSleeps := st.pollSleeps ++ [POLL_WAIT],
          backoffSleeps := st.backoffSleeps ++ [min st.backoff BACKOFF_MAX] }
        d2 := by
  have h1a : env.calls (sleepPoll POLL_WAIT
      { st with attempt := st.attempt + 1 }).nextCall = .ok d1 := h1
  have h2a : env.calls (backoffStep { sleepPoll POLL_WAIT
      { st with attempt := st.attempt + 1 } with
        nextCall := (sleepPoll POLL_WAIT
          { st with attempt := st.attempt + 1 }).nextCall + 1 }).nextCall
      = .ok d2 := h2
  have hstep : pollStep env host st d =
      .inr ({ now := st.now + POLL_WAIT + min st.backoff BACKOFF_MAX,
              backoff := min (st.backoff * 2) BACKOFF_MAX,
              attempt := st.attempt + 1,
              nextCall := st.nextCall + 2,
              pollSleeps := st.pollSleeps ++ [POLL_WAIT],
              backoffSleeps := st.backoffSleeps ++
                [min st.backoff BACKOFF_MAX] }, d2) := by
    unfold pollStep
    rw [if_neg (not_or.mpr hnt), if_neg (Nat.not_le.mpr htime)]
    simp only [h1a, hl, if_true, h2a]
    rfl
  rw [pollLoop, hstep]

/-- Claim C6 witness: the one-extra-call equation at the initial state with
two consecutive quota-exceeded responses (the extra call again reports the
limit and is still fallen through with). -/
theorem claim6_midpoll_limit_one_extra_call_witness :
    pollLoop envTwoLimit "h.example" (1 + 1) St.init inprogResp =
      pollLoop envTwoLimit "h.example" 1
        { now := St.init.now + POLL_WAIT + min St.init.backoff BACKOFF_MAX,
          backoff := min (St.init.backoff * 2) BACKOFF_MAX,
          attempt := St.init.attempt + 1,
          nextCall := St.init.nextCall + 2,
          pollSleeps := St.init.pollSleeps ++ [POLL_WAIT],
          backoffSleeps := St.init.backoffSleeps ++
            [min St.init.backoff BACKOFF_MAX] }
        limitResp :=
  claim6_midpoll_limit_one_extra_call envTwoLimit "h.example" 1 St.init
    inprogResp limitResp limitResp ⟨by decide, by decide⟩ (by decide)
    rfl (by decide) rfl

/-- Claim C7: if the submission response and the following K - 1 retry
responses all report quota-exceeded and the (K+1)th call returns a
non-quota-exceeded response, the submission phase makes exactly K + 1 calls
and exits with exactly that first non-quota-exceeded response. -/
theorem claim7_submission_retries (env : Env) (host : String) (K fuel : Nat)
    (dK : Resp)
    (hq : ∀ i, i < K → isQuota env i)
    (hK : env.calls K = .ok dK) (hKl : is_limit_error dK = false)
    (hfuel : K ≤ fuel) :
    ∃ st, submitPhase env host fuel = some (st, dK) ∧
      st.nextCall = K + 1 := by
  have hb : ({ St.init with nextCall := St.init.nextCall + 1 } : St).nextCall
      = 1 := rfl
  rcases K with _ | K0
  · refine ⟨{ St.init with nextCall := St.init.nextCall + 1 }, ?_, rfl⟩
    have hK0 : env.calls St.init.nextCall = .ok dK := hK
    unfold submitPhase
    simp only [hK0]
    rw [if_neg (by simp [hKl])]
  · obtain ⟨d0, hc0, hl0⟩ := hq 0 (Nat.succ_pos K0)
    have hc0a : env.calls St.init.nextCall = .ok d0 := hc0
    obtain ⟨st2, r, hrun, hnc, hval⟩ :=
      limitLoop_run env host K0
        { St.init with nextCall := St.init.nextCall + 1 }
        (fun i hi => by
          rw [hb, show 1 + i = i + 1 from by omega]
          exact hq (i + 1) (by omega))
        (by
          rw [hb, show 1 + K0 = K0 + 1 from by omega]
          rintro ⟨dx, hdx, hlx⟩
          rw [hK] at hdx
          injection hdx with hdx
          rw [← hdx] at hlx
          rw [hKl] at hlx
          cases hlx)
    have hrK : r = dK := by
      apply hval
      rw [hb, show 1 + K0 = K0 + 1 from by omega]
      exact hK
    subst hrK
    rw [hb] at hnc
    refine ⟨st2, ?_, by omega⟩
    unfold submitPhase
    simp only [hc0a]
    rw [if_pos hl0]
    exact limitLoop_mono env host (by omega) hrun

/-- Claim C7 witness: the submission-retry theorem with K = 2 consecutive
quota-exceeded responses followed by READY: three calls, exiting with the
READY response. -/
theorem claim7_submission_retries_witness :
    ∃ st, submitPhase envTwoLimit "h.example" 5 = some (st, readyResp) ∧
      st.nextCall = 2 + 1 :=
  claim7_submission_retries envTwoLimit "h.example" 2 5 readyResp
    (fun i hi => by interval_cases i <;> exact ⟨limitResp, rfl, by decide⟩)
    rfl (by decide) (by omega)

/-- Claim C8: a cached result with status READY is returned immediately:
no `newScan` call is made (zero calls), no sleep of either kind happens and
the clock never advances — the session state is never touched past its
initial value. -/
theorem claim8_cache_short_circuit (env : Env) (host : String) (fuel : Nat)
    (c : Resp) (hc : env.cache = some c) (hr : c.status = some "READY") :
    scan_until_ready env host fuel = some (St.init, c) ∧
    St.init.nextCall = 0 ∧ St.init.pollSleeps = [] ∧
    St.init.backoffSleeps = [] ∧ St.init.now = 0 := by
  refine ⟨?_, rfl, rfl, rfl, rfl⟩
  unfold scan_until_ready
  simp only [hc]
  rw [if_pos hr]

/-- Claim C8 witness: the cache short-circuit theorem applied to a cached
READY environment, with zero fuel. -/
theorem claim8_cache_short_circuit_witness :
    scan_until_ready envCached "h.example" 0 = some (St.init, readyResp) ∧
    St.init.nextCall = 0 ∧ St.init.pollSleeps = [] ∧
    St.init.backoffSleeps = [] ∧ St.init.now = 0 :=
  claim8_cache_short_circuit envCached "h.example" 0 readyResp rfl rfl

/-- Claim C9: with no READY cache entry, if the first submit call returns a
READY response free of quota-exceeded errors, the session makes exactly one
`newScan` call, sleeps not at all (both sleep logs empty, clock at 0) and
returns that response. -/
theorem claim9_first_call_ready (env : Env) (host : String) (fuel : Nat)
    (d : Resp)
    (hc : ∀ c, env.cache = some c → c.status ≠ some "READY")
    (h0 : env.calls 0 = .ok d) (hr : d.status = some "READY")
    (hl : is_limit_error d = false) (hf : 1 ≤ fuel) :
    scan_until_ready env host fuel =
      some ({ now := 0, backoff := BACKOFF_START, attempt := 0,
              nextCall := 1, pollSleeps := [], backoffSleeps := [] }, d) := by
  have h0a : env.calls St.init.nextCall = .ok d := h0
  have hbody : scanBody env host fuel =
      some ({ now := 0, backoff := BACKOFF_START, attempt := 0,
              nextCall := 1, pollSleeps := [], backoffSleeps := [] }, d) := by
    unfold scanBody
    simp only [h0a]
    rw [if_neg (by simp [hl])]
    exact pollLoop_terminal env host (Or.inl hr) hf
  rcases hcache : env.cache with _ | c
  · unfold scan_until_ready; rw [hcache]; exact hbody
  · unfold scan_until_ready; simp only [hcache]
    rw [if_neg (hc c hcache)]; exact hbody

/-- Claim C9 witness: the single-call theorem applied to an environment that
answers READY at once. -/
theorem claim9_first_call_ready_witness :
    scan_until_ready envReady "h.example" 1 =
      some ({ now := 0, backoff := BACKOFF_START, attempt := 0,
              nextCall := 1, pollSleeps := [], backoffSleeps := [] },
            readyResp) :=
  claim9_first_call_ready envReady "h.example" 1 readyResp
    (fun c hcc => by cases hcc) rfl rfl (by decide) (by omega)

/-- Claim C10: `has_https` returns true exactly when the TCP connect
succeeds (any connection error yields false, never an exception), and for a
host on which it returns false the pipeline records the fixed No-HTTPS
placeholder row and makes zero remote assessment calls. -/
theorem claim10_host_gate (net : NetEnv) (env : Env) (host : String)
    (fuel : Nat) :
    (has_https net host 443 4 = true ↔
      ∃ u, net.connect host 443 4 = .ok u) ∧
    (has_https net host 443 4 = false →
      mainHostStep net env host fuel = some (.ok (noHttpsRow host), 0)) := by
  constructor
  · unfold has_https
    rcases hc : net.connect host 443 4 with e | u <;> simp
  · intro hfalse
    simp [mainHostStep, hfalse]

/-- Claim C10 witness: the host-gate theorem applied to a refused
connection. -/
theorem claim10_host_gate_witness :
    mainHostStep netDown envReady "h.example" 1 =
      some (.ok (noHttpsRow "h.example"), 0) :=
  (claim10_host_gate netDown envReady "h.example" 1).2 rfl

end SslSub
